import Mathlib

set_option maxHeartbeats 1000000

/- Shallow embedding of the python-tree repository (src/tree.py, src/node.py).

   Machine model notes:
   - A plain Python value is modelled by `PyVal`: its `str()` form together
     with its truthiness (`bool(x)`).  A Python string `s` is `pyStr s`
     (truthy iff nonempty).
   - Python `None` occurring as a child entry is `Item.pynone`; a plain
     (non-Tree) object whose `__str__` raises — any user-defined object can
     do this, e.g. one whose stored render function raises, cf. the
     `print_function` mechanism of src/node.py — is `Item.raising`;
     `str(item)` on it (tree.py line 342) propagates the exception.
   - Python exceptions are modelled with `Except PyErr`.
   - Python character strings are modelled by Lean `String`; indexing and
     slicing in the source are by characters, matching `String.data`
     (a `List Char`).
-/

/-- Python value: its str() form and its truthiness. -/
structure PyVal where
  str : String
  truthy : Bool
deriving DecidableEq, Repr

/-- PyVal modelling an ordinary Python string (truthy iff nonempty). -/
def pyStr (s : String) : PyVal := ⟨s, s != ""⟩

/-- Python dict key: a string or an int (the two kinds the source ever
compares; `Tree.__recursive_generation` compares dict keys with the int
`len(self.nodes) - 1`). -/
inductive Key where
  | str (s : String)
  | int (n : Int)
deriving DecidableEq, Repr

/-- Python `==` on keys: values of different types compare unequal. -/
def keyBeq : Key → Key → Bool
  | .str a, .str b => a == b
  | .int a, .int b => a == b
  | _, _ => false

/-- Python `==` between a key and an int. -/
def keyEqInt (k : Key) (n : Int) : Bool := keyBeq k (.int n)

/-- Python `str()` of a key (used by `Tree.search` for the name compare). -/
def keyStr : Key → String
  | .str s => s
  | .int n => toString n

/-- Python exceptions that the modelled code can raise. -/
inductive PyErr where
  | attributeError
  | strFailure
deriving DecidableEq, Repr

/- ----------------------------------------------------------------- -/
/- String helpers (character-level, mirroring Python str semantics)  -/
/- ----------------------------------------------------------------- -/

/-- Python whitespace test for `str.strip()` (the ASCII whitespace class). -/
def isPySpace (c : Char) : Bool :=
  c = ' ' || c = '\t' || c = '\n' || c = '\r' || c = '\x0b' || c = '\x0c'

/-- Python `s.strip() != ""`: s has some non-whitespace character. -/
def nonblank (s : String) : Bool := s.data.any (fun c => !(isPySpace c))

/-- Python `s[n:]` (slice off the first n characters). -/
def strDrop (s : String) (n : Nat) : String := ⟨s.data.drop n⟩

/-- Python `len(line) > 0 and line[0] != c`. -/
def firstCharNe (c : Char) (s : String) : Bool :=
  match s.data with
  | [] => false
  | d :: _ => d != c

/-- Python `s.lower()` (ASCII case folding suffices for the model). -/
def pyLower (s : String) : String := ⟨s.data.map Char.toLower⟩

/-- Split a list of characters at newline characters (Python
`s.split("\n")`; the empty string yields `[""]`). -/
def splitNlChars : List Char → List (List Char)
  | [] => [[]]
  | c :: rest =>
    match splitNlChars rest with
    | [] => [[]]
    | cur :: done => if c = '\n' then [] :: cur :: done else (c :: cur) :: done

/-- Python `s.split("\n")`. -/
def splitNl (s : String) : List String := (splitNlChars s.data).map (fun l => ⟨l⟩)

/-- Join character lines with a newline character between them. -/
def joinNl : List (List Char) → List Char
  | [] => []
  | [l] => l
  | l :: rest => l ++ '\n' :: joinNl rest

/-- Cut a character list into chunks of w characters; the first argument is
fuel (call with the length of the list; w ≥ 1 keeps it sufficient). -/
def chunkAux (w : Nat) : Nat → List Char → List (List Char)
  | _, [] => []
  | 0, rest => [rest]
  | fuel + 1, l => l.take w :: chunkAux w fuel (l.drop w)

/-- Modelled from the spec: the word-wrap helper `tabulate` of the
repository's `formatString` module is not under src/; the spec specifies it
only as a pure function `wrap(text, maxWidth) -> sequence of lines` that
"breaks a long string into fixed-width lines".  We model it as cutting the
text into maxWidth-character lines joined by newlines.  Every call site
passes 0 for the third (indent) argument, modelled as unused. -/
def tabulate (text : String) (width : Int) (_indent : Nat) : String :=
  if width ≤ 0 then text
  else ⟨joinNl (chunkAux width.toNat text.data.length text.data)⟩

/- ----------------------------------------------------------------- -/
/- Glyphs (Tree.__set_characters)                                    -/
/- ----------------------------------------------------------------- -/

/-- Vertical continuation glyph (`self.pipe`). -/
def pipeG (fancy : Bool) : String := if fancy then "│" else "|"

/-- Mid-sibling connector glyph (`self.branch`). -/
def branchG (fancy : Bool) : String := if fancy then "├─" else "|->"

/-- Last-sibling connector glyph (`self.end`). -/
def endG (fancy : Bool) : String := if fancy then "└─" else "|->"

/-- Indent filler glyph (`self.space`). -/
def spaceG (fancy : Bool) : String := if fancy then " " else "  "

/-- Placeholder for an empty name (`self.nameless`). -/
def namelessG (fancy : Bool) : String := if fancy then "┐" else "\\"

/-- Wrapped-continuation marker (`self.split_line`), same in both palettes. -/
def splitLineG : String := "~"

/- ----------------------------------------------------------------- -/
/- The tree data model (class Tree)                                  -/
/- ----------------------------------------------------------------- -/

mutual
/-- A Tree object: fields name, nodes, fancy, line_wrap, width.  The glyph
attributes (pipe/branch/end/...) are always the ones determined by `fancy`
(`__set_characters` runs at every assignment of `fancy`), so they are
derived by the `...G` functions rather than stored.  The `dirty` flag is
never consulted by any modelled behaviour and is omitted. -/
inductive PTree where
  | mk (name : Option PyVal) (nodes : Children) (fancy : Bool)
       (line_wrap : Int) (width : Int)

/-- The `self.nodes` field: Python `None`, a list, or a dict. -/
inductive Children where
  | none
  | list (items : ItemList)
  | dict (entries : EntryList)

/-- A child entry: a nested Tree, a plain value, Python None, or a value
whose `str()` raises. -/
inductive Item where
  | tree (t : PTree)
  | val (v : PyVal)
  | raising
  | pynone

/-- A Python list of items. -/
inductive ItemList where
  | nil
  | cons (head : Item) (tail : ItemList)

/-- A Python dict of items, as its insertion-ordered key/value pairs
(Python dict keys are unique). -/
inductive EntryList where
  | nil
  | cons (key : Key) (head : Item) (tail : EntryList)
end

/-- Python `len` of a list of items. -/
def ItemList.length : ItemList → Nat
  | .nil => 0
  | .cons _ t => t.length + 1

/-- Python `len` of a dict of items. -/
def EntryList.length : EntryList → Nat
  | .nil => 0
  | .cons _ _ t => t.length + 1

/-- Projection: the name field of a Tree. -/
def PTree.name : PTree → Option PyVal
  | .mk n _ _ _ _ => n

/-- Projection: the nodes field of a Tree. -/
def PTree.nodes : PTree → Children
  | .mk _ c _ _ _ => c

/-- Projection: the fancy field of a Tree. -/
def PTree.fancy : PTree → Bool
  | .mk _ _ f _ _ => f

/-- Projection: the line_wrap field of a Tree. -/
def PTree.line_wrap : PTree → Int
  | .mk _ _ _ lw _ => lw

/-- Projection: the width field of a Tree. -/
def PTree.width : PTree → Int
  | .mk _ _ _ _ w => w

/-- The argument passed to `Tree.set_nodes` / the Tree constructor: a list,
a dict, or any other single Python value (None, a string, a Tree, ...). -/
inductive SetNodesArg where
  | list (items : ItemList)
  | dict (entries : EntryList)
  | bare (x : Item)

/-- Tree.set_nodes: anything that is neither a list nor a dict is wrapped
into a one-element list. -/
def set_nodes : SetNodesArg → Children
  | .list l => .list l
  | .dict d => .dict d
  | .bare x => .list (.cons x .nil)

/-- Tree.__init__(name, nodes, fancy, wrap, width): `None` wrap/width
default to -1, then set_term_size / set_line_wrap store them (both are
non-None by then). -/
def treeInit (name : Option PyVal) (nodes : SetNodesArg) (fancy : Bool)
    (wrap : Option Int) (width : Option Int) : PTree :=
  .mk name (set_nodes nodes) fancy (wrap.getD (-1)) (width.getD (-1))

/-- View an existing nodes field as a constructor argument (used by
`Tree.print`, which passes `self.nodes` to the Tree constructor; a `None`
field is a bare non-collection value there). -/
def childArg : Children → SetNodesArg
  | .none => .bare .pynone
  | .list l => .list l
  | .dict d => .dict d

/-- Tree.__str__: the name if it is truthy, else the empty string. -/
def treeStr : Option PyVal → String
  | some v => if v.truthy then v.str else ""
  | none => ""

/- ----------------------------------------------------------------- -/
/- The layout algorithm (Tree.__recursive_generation)                -/
/- ----------------------------------------------------------------- -/

/-- Emit the wrapped lines of a node name (tree.py lines 284-297): blank
lines are dropped; the line at position 0 gets the connector, every later
line gets the split_line marker. -/
def emitName (pfx : String) : List String → List String
  | [] => []
  | l0 :: rest =>
    (if nonblank l0 then [pfx ++ l0] else [])
      ++ rest.filterMap (fun l => if nonblank l then some (splitLineG ++ l) else Option.none)

/-- Emit the wrapped lines of a plain child value (tree.py lines 357-378):
like emitName, but continuation lines get a pipe/space before the
split_line marker. -/
def emitWrapped (pfx wrapPfx : String) : List String → List String
  | [] => []
  | l0 :: rest =>
    (if nonblank l0 then [pfx ++ l0] else [])
      ++ rest.filterMap
        (fun l => if nonblank l then some (wrapPfx ++ splitLineG ++ l) else Option.none)

/-- Re-prefix the lines of a generated child subtree (tree.py lines
323-336): every line except the first gets the parent's pipe (child not
last) or space (child last), then one more space unless the line starts
with the split_line character. -/
def reindent (fancy isLast : Bool) : List String → List String
  | [] => []
  | l0 :: rest =>
    l0 :: rest.map (fun line =>
      (if isLast then spaceG fancy else pipeG fancy)
        ++ (if firstCharNe '~' line then spaceG fancy else "")
        ++ line)

mutual
/-- Tree.__recursive_generation(self, last, prior_prefix, root).  The
try/except AttributeError fallbacks of the source are dead in the model:
every Tree has its line_wrap/width attributes.  Exceptions can only come
from `str(item)` on a plain child value whose `__str__` raises, and
propagate uncaught. -/
def recGen : PTree → Bool → Nat → Bool → Except PyErr (List String)
  | .mk name nodes fancy lw w, last, prior, root =>
    let nm := treeStr name
    let own : List String :=
      if nm != "" || !root then
        let nm2 := if nm == "" then namelessG fancy else nm
        let pfx := if last then endG fancy else branchG fancy
        if lw > 0 then emitName pfx (splitNl (tabulate nm2 lw 0))
        else [pfx ++ nm2]
      else []
    match genChildren fancy lw w last prior nodes with
    | .error e => .error e
    | .ok rest => .ok (own ++ rest)

/-- The loop over `self.nodes` (tree.py lines 302-382), dispatching on the
shape of the child collection. -/
def genChildren (fancy : Bool) (lw w : Int) (last : Bool) (prior : Nat) :
    Children → Except PyErr (List String)
  | .none => .ok []
  | .list items => genItems fancy lw w last prior items.length 0 items
  | .dict entries => genEntries fancy lw w last prior entries.length entries

/-- The loop body over a list of children: the index i runs over
`range(len(nodes))` and the last-entry test is `i == len(nodes) - 1`. -/
def genItems (fancy : Bool) (lw w : Int) (last : Bool) (prior : Nat)
    (total i : Nat) : ItemList → Except PyErr (List String)
  | .nil => .ok []
  | .cons item rest =>
    match genItem fancy lw w last prior (i == total - 1) item with
    | .error e => .error e
    | .ok a =>
      match genItems fancy lw w last prior total (i + 1) rest with
      | .error e => .error e
      | .ok b => .ok (a ++ b)

/-- The loop body over a dict of children: the loop variable is the KEY,
and the last-entry test compares that key with the int
`len(nodes) - 1`. -/
def genEntries (fancy : Bool) (lw w : Int) (last : Bool) (prior : Nat)
    (total : Nat) : EntryList → Except PyErr (List String)
  | .nil => .ok []
  | .cons k item rest =>
    match genItem fancy lw w last prior (keyEqInt k ((total : Int) - 1)) item with
    | .error e => .error e
    | .ok a =>
      match genEntries fancy lw w last prior total rest with
      | .error e => .error e
      | .ok b => .ok (a ++ b)

/-- Handling of one child entry (isLast is the `i == len(nodes) - 1` test
for this entry).  For a nested Tree the connector whose length feeds
prior_prefix is chosen by the PARENT's `last` flag (tree.py lines
316-318); for a plain value the connector is chosen by isLast (line
345). -/
def genItem (fancy : Bool) (lw w : Int) (last : Bool) (prior : Nat)
    (isLast : Bool) : Item → Except PyErr (List String)
  | .tree t =>
    let pfx := if last then endG fancy else branchG fancy
    match recGen t isLast (pfx.length + prior) false with
    | .error e => .error e
    | .ok childLines => .ok (reindent fancy isLast childLines)
  | .pynone => .ok []
  | .raising => .error .strFailure
  | .val v =>
    let it := v.str
    let pfx := if isLast then endG fancy else branchG fancy
    let wrapOpt : Option Int :=
      if w > 0 then some (w - (pfx.length : Int) - (prior : Int))
      else if lw > 0 then some lw else Option.none
    match wrapOpt with
    | some wr =>
      .ok (emitWrapped pfx (if isLast then spaceG fancy else pipeG fancy)
            (splitNl (tabulate it wr 0)))
    | Option.none => .ok [pfx ++ it]
end

/- ----------------------------------------------------------------- -/
/- The outer driver (Tree.print)                                     -/
/- ----------------------------------------------------------------- -/

/-- Tree.print(remove_root_branch): wraps the whole tree as the single
child of itself, generates the lines, strips `len(self.end)` characters
from each line when remove_root_branch is set, and restores name/nodes.
Returns the produced list of lines together with the post-call state of
the Tree object (if generation raises, the exception propagates before
name/nodes are restored).  The `as_a_string` variant returns the same
lines joined with newlines and is not modelled separately; the
`del self.list[i]` branch is dead (every produced entry is a string). -/
def printTree : PTree → Bool → (Except PyErr (List String)) × PTree
  | .mk name nodes fancy lw w, remove =>
    let child := treeInit name (childArg nodes) fancy (some lw) (some w)
    let working : PTree := .mk Option.none (.list (.cons (.tree child) .nil)) fancy lw w
    match recGen working true 0 true with
    | .error e => (.error e, working)
    | .ok lines =>
      let lines := if remove then lines.map (fun l => strDrop l (endG fancy).length)
                   else lines
      (.ok lines, .mk name nodes fancy lw w)

/- ----------------------------------------------------------------- -/
/- Lookup (Tree.search) and insertion (Tree.add_node)                -/
/- ----------------------------------------------------------------- -/

/-- Python `self.nodes[key]` with KeyError caught: first entry whose key
compares equal, else None. -/
def dictLookup : EntryList → Key → Option Item
  | .nil, _ => Option.none
  | .cons k v rest, key => if keyBeq k key then some v else dictLookup rest key

/-- Python `str(item.name)` for the list branch of Tree.search: reading
`.name` on a plain value (a str, None, ...) raises AttributeError; on a
Tree it yields the name attribute, whose `str()` form is "None" when the
attribute is None. -/
def itemNameStr : Item → Except PyErr String
  | .tree t =>
    match t.name with
    | some v => .ok v.str
    | Option.none => .ok "None"
  | _ => .error .attributeError

/-- The list branch of Tree.search (tree.py lines 127-131). -/
def searchList : ItemList → Key → Except PyErr (Option Item)
  | .nil, _ => .ok Option.none
  | .cons item rest, key =>
    match itemNameStr item with
    | .error e => .error e
    | .ok nm =>
      if pyLower nm == pyLower (keyStr key) then .ok (some item)
      else searchList rest key

/-- Tree.search(key): dict children by exact key (a missing key returns
None, KeyError is caught), list children by case-insensitive name. -/
def search (t : PTree) (key : Key) : Except PyErr (Option Item) :=
  match t.nodes with
  | .dict d => .ok (dictLookup d key)
  | .list l => searchList l key
  | .none => .ok Option.none

/-- Python list append. -/
def ItemList.append (l : ItemList) (x : Item) : ItemList :=
  match l with
  | .nil => .cons x .nil
  | .cons h t => .cons h (t.append x)

/-- Python `d |= {key: node}`: overwrite in place if the key exists,
else append the new pair. -/
def EntryList.insert (d : EntryList) (key : Key) (x : Item) : EntryList :=
  match d with
  | .nil => .cons key x .nil
  | .cons k v rest =>
    if keyBeq k key then .cons k x rest else .cons k v (rest.insert key x)

/-- Tree.add_node(node, key): returns the updated tree and the value the
method returns (the inserted node, or None when a dict-shaped tree is
given no key). -/
def add_node : PTree → Item → Option Key → PTree × Option Item
  | .mk n nodes f lw w, node, key =>
    match nodes with
    | .none =>
      match key with
      | Option.none => (.mk n (.list (.cons node .nil)) f lw w, some node)
      | some k => (.mk n (.dict (.cons k node .nil)) f lw w, some node)
    | .dict d =>
      match key with
      | some k => (.mk n (.dict (d.insert k node)) f lw w, some node)
      | Option.none => (.mk n (.dict d) f lw w, Option.none)
    | .list l => (.mk n (.list (l.append node)) f lw w, some node)

/- ----------------------------------------------------------------- -/
/- NodeValue resolution (Node.__str__, src/node.py)                  -/
/- ----------------------------------------------------------------- -/

/-- The fields of a Node object that its `__str__` consults.  The stored
print_function takes one optional positional argument, mirroring the two
call shapes `print_function(print_args)` and `print_function()`. -/
structure NodeData where
  data : Option PyVal
  name : Option PyVal
  print_function : Option (Option PyVal → String)
  print_args : Option PyVal

/-- Node.__str__: a stored function object is always truthy, so it is used
whenever attached; `if self.print_args:` is a truthiness test, so a falsy
stored argument is NOT passed; `data` and `name` are tested with
`is not None`. -/
def node_str (nd : NodeData) : String :=
  match nd.print_function with
  | some pf =>
    (match nd.print_args with
     | some a => if a.truthy then pf (some a) else pf Option.none
     | Option.none => pf Option.none)
  | Option.none =>
    match nd.data with
    | some d => d.str
    | Option.none =>
      match nd.name with
      | some n => n.str
      | Option.none => ""

/- ----------------------------------------------------------------- -/
/- Display-setting updates (set_fancy / set_line_wrap /              -/
/- set_term_size, Tree.__cascade, Tree.update)                       -/
/- ----------------------------------------------------------------- -/

/-- Which setter a cascading update invokes (Python passes the method NAME
to `getattr`; the three names the source ever passes are modelled as an
enum). -/
inductive FunName where
  | setFancy
  | setLineWrap
  | setTermSize
deriving DecidableEq, Repr

/-- One of the three settings together with its new value.  set_fancy
always assigns; set_line_wrap / set_term_size assign only when the value
is not None. -/
inductive Setting where
  | fancy (v : Bool)
  | lineWrap (v : Option Int)
  | termSize (v : Option Int)

/-- The root-local assignment a setter performs on its own object. -/
def applySetting1 : Setting → PTree → PTree
  | .fancy v, .mk n c _ lw w => .mk n c v lw w
  | .lineWrap v, .mk n c f lw w => .mk n c f (v.getD lw) w
  | .termSize v, .mk n c f lw w => .mk n c f lw (v.getD w)

mutual
/-- A setter with its cascade flag: assign locally, and when cascading run
`Tree.__cascade` with the same setter and cascade=True on the children.
`__cascade` iterates only when `items` is a list: for dict-shaped children
it takes `self.nodes.values()`, which is a dict view and fails the
`isinstance(items, list)` test, so dict children are never touched
(tree.py lines 106-116). -/
def setRec (s : Setting) (c : Bool) : PTree → PTree
  | .mk n nodes f lw w =>
    applySetting1 s (.mk n (if c then setChildren s nodes else nodes) f lw w)

/-- Cascade of one setter over a child collection (list children only;
see setRec). -/
def setChildren (s : Setting) : Children → Children
  | .none => .none
  | .list l => .list (setItems s l)
  | .dict d => .dict d

/-- Cascade of one setter over the items of a list: only Tree items are
updated (with cascade=True), everything else is untouched. -/
def setItems (s : Setting) : ItemList → ItemList
  | .nil => .nil
  | .cons (.tree t) rest => .cons (.tree (setRec s true t)) (setItems s rest)
  | .cons x rest => .cons x (setItems s rest)
end

/-- Tree.set_fancy(set_fancy, cascade). -/
def set_fancy (v : Bool) (c : Bool) (t : PTree) : PTree := setRec (.fancy v) c t

/-- Tree.set_line_wrap(line_width, cascade). -/
def set_line_wrap (v : Option Int) (c : Bool) (t : PTree) : PTree :=
  setRec (.lineWrap v) c t

/-- Tree.set_term_size(width, cascade). -/
def set_term_size (v : Option Int) (c : Bool) (t : PTree) : PTree :=
  setRec (.termSize v) c t

/-- An argument tuple stored in the `args` list passed to `Tree.__cascade`:
the source only ever builds `(bool, cascade)` and `(int, cascade)`
tuples. -/
inductive CArg where
  | fancyArg (v : Bool) (c : Bool)
  | widthArg (v : Int) (c : Bool)
deriving DecidableEq, Repr

/-- `getattr(item, functions[i])` followed by `fun(*(args[i]))`.  The
mismatched pairings never occur on any modelled call path; they are given
Python's dynamic-typing semantics (a Python bool IS the int 1 or 0, and an
int assigned to `fancy` acts through its truthiness). -/
def applyMethod : FunName → CArg → PTree → PTree
  | .setFancy, .fancyArg v c, t => set_fancy v c t
  | .setLineWrap, .widthArg v c, t => set_line_wrap (some v) c t
  | .setTermSize, .widthArg v c, t => set_term_size (some v) c t
  | .setFancy, .widthArg v c, t => set_fancy (v != 0) c t
  | .setLineWrap, .fancyArg v c, t => set_line_wrap (some (if v then 1 else 0)) c t
  | .setTermSize, .fancyArg v c, t => set_term_size (some (if v then 1 else 0)) c t

/-- Application of a whole function/argument pair list to one Tree item
(the inner `for i in range(len(functions))` loop of `Tree.__cascade`). -/
def applyPairs (pairs : List (FunName × CArg)) (t : PTree) : PTree :=
  pairs.foldl (fun acc p => applyMethod p.1 p.2 acc) t

/-- The `for item in items` loop of `Tree.__cascade`: Tree items get every
function applied, other items are untouched. -/
def cascadeItems (pairs : List (FunName × CArg)) : ItemList → ItemList
  | .nil => .nil
  | .cons (.tree t) rest => .cons (.tree (applyPairs pairs t)) (cascadeItems pairs rest)
  | .cons x rest => .cons x (cascadeItems pairs rest)

/-- Tree.__cascade(functions, args).  The call sites pass lists (or single
values the source immediately wraps into one-element lists; the model's
call sites pass the wrapped form).  On a length mismatch the source hits
`return` and the call is a silent no-op; it raises nothing and changes
nothing.  Dict-shaped children fail the `isinstance(items, list)` test and
are also left untouched. -/
def cascade (funs : List FunName) (args : List CArg) : PTree → Except PyErr PTree
  | .mk n nodes f lw w =>
    if funs.length != args.length then .ok (.mk n nodes f lw w)
    else
      match nodes with
      | .list l => .ok (.mk n (.list (cascadeItems (funs.zip args) l)) f lw w)
      | .dict d => .ok (.mk n (.dict d) f lw w)
      | .none => .ok (.mk n .none f lw w)

/-- Tree.update(set_fancy, line_width, term_width, cascade): apply each
given setting to the root with cascade=False, collect the corresponding
function names and argument tuples (each tuple carrying the original
cascade flag), then run `__cascade` when cascade is set. -/
def update (of : Option Bool) (olw otw : Option Int) (c : Bool) (t : PTree) :
    Except PyErr PTree :=
  let s1 : PTree × List FunName × List CArg :=
    match of with
    | some v => (set_fancy v false t, [.setFancy], [.fancyArg v c])
    | Option.none => (t, [], [])
  let s2 : PTree × List FunName × List CArg :=
    match olw with
    | some v =>
      (set_line_wrap (some v) false s1.1, s1.2.1 ++ [.setLineWrap], s1.2.2 ++ [.widthArg v c])
    | Option.none => s1
  let s3 : PTree × List FunName × List CArg :=
    match otw with
    | some v =>
      (set_term_size (some v) false s2.1, s2.2.1 ++ [.setTermSize], s2.2.2 ++ [.widthArg v c])
    | Option.none => s2
  if c then cascade s3.2.1 s3.2.2 s3.1 else .ok s3.1

/- ----------------------------------------------------------------- -/
/- Decidability of result comparisons                                -/
/- ----------------------------------------------------------------- -/

/-- Equality of Except results is decidable when both components are. -/
instance exceptDecEq {ε α : Type} [DecidableEq ε] [DecidableEq α] :
    DecidableEq (Except ε α)
  | .error a, .error b => decidable_of_iff (a = b) (by simp)
  | .ok a, .ok b => decidable_of_iff (a = b) (by simp)
  | .error _, .ok _ => isFalse (fun h => nomatch h)
  | .ok _, .error _ => isFalse (fun h => nomatch h)

/- ----------------------------------------------------------------- -/
/- Concrete inputs used by the claim theorems                        -/
/- ----------------------------------------------------------------- -/

/-- A tree named "R" with ordered children ["a", "b"], ASCII palette, no
wrap (the scenario of §8 of the spec). -/
def exTree : PTree :=
  treeInit (some (pyStr "R"))
    (.list (.cons (.val (pyStr "a")) (.cons (.val (pyStr "b")) .nil)))
    false Option.none Option.none

/-- A nameless tree whose children are the dict {"a": "x"}, fancy palette. -/
def c3Tree : PTree :=
  treeInit Option.none (.dict (.cons (.str "a") (.val (pyStr "x")) .nil))
    true Option.none Option.none

/-- A tree with a single childless child named "T". -/
def c4Tree : PTree := treeInit (some (pyStr "T")) (.bare .pynone) false Option.none Option.none

/-- A tree named "R" whose only child's str() raises. -/
def c4bad : PTree :=
  treeInit (some (pyStr "R")) (.list (.cons .raising .nil)) false Option.none Option.none

/-- A tree whose children are the list ["a"]. -/
def c5list : PTree :=
  treeInit (some (pyStr "T")) (.list (.cons (.val (pyStr "a")) .nil))
    false Option.none Option.none

/-- A tree whose children are the dict {"a": "x"}. -/
def c5dict : PTree :=
  treeInit (some (pyStr "T")) (.dict (.cons (.str "a") (.val (pyStr "x")) .nil))
    false Option.none Option.none

/-- A childless Tree child with fancy=False. -/
def c6child : PTree := treeInit (some (pyStr "c")) (.bare .pynone) false Option.none Option.none

/-- A tree holding c6child under the dict key "k". -/
def c6dict : PTree :=
  treeInit (some (pyStr "R")) (.dict (.cons (.str "k") (.tree c6child) .nil))
    false Option.none Option.none

/- ----------------------------------------------------------------- -/
/- Claim C1                                                          -/
/- ----------------------------------------------------------------- -/

/-- Modelled from the claim: stripping n leading characters from the first
produced line only, leaving every other line unmodified. -/
def stripFirstOnly (n : Nat) : List String → List String
  | [] => []
  | l :: rest => strDrop l n :: rest

/-- C1, counterexample: on the tree "R" -> ["a", "b"] (ASCII palette),
print with remove_root_branch=True does NOT equal the first-line-only
stripping of the produced lines: the later lines are modified too. -/
theorem C1_counterexample :
    (printTree exTree true).1
      ≠ Except.map (stripFirstOnly (endG exTree.fancy).length) (printTree exTree false).1 := by
  intro h
  have h1 : (printTree exTree true).1 = .ok ["R", " |->a", " |->b"] := rfl
  have h2 : Except.map (stripFirstOnly (endG exTree.fancy).length) (printTree exTree false).1
      = .ok ["R", "    |->a", "    |->b"] := rfl
  rw [h1, h2] at h
  exact absurd h (by decide)

/-- C1 (amended): print with remove_root_branch=True strips exactly
length(end glyph) leading characters from EVERY produced line, not only
the first; with remove_root_branch=False the produced lines are returned
unmodified. -/
theorem C1_every_line_stripped (t : PTree) :
    (printTree t true).1
      = Except.map (List.map (fun l => strDrop l (endG t.fancy).length))
          (printTree t false).1 := by
  cases t with
  | mk n c f lw w =>
    unfold printTree
    cases hrec : recGen (PTree.mk Option.none
        (.list (.cons (.tree (treeInit n (childArg c) f (some lw) (some w))) .nil)) f lw w)
        true 0 true <;>
      simp [hrec, Except.map, PTree.fancy]

/- ----------------------------------------------------------------- -/
/- Claim C2                                                          -/
/- ----------------------------------------------------------------- -/

/-- C2, counterexample: the claimed output ["|->a", "|->b"] is not what
the scenario produces. -/
theorem C2_counterexample : (printTree exTree true).1 ≠ .ok ["|->a", "|->b"] := by
  intro h
  have h1 : (printTree exTree true).1 = .ok ["R", " |->a", " |->b"] := rfl
  rw [h1] at h
  exact absurd h (by decide)

/-- C2 (amended): the scenario (root "R", ordered children ["a", "b"],
ASCII palette, no wrap, root-connector stripping) produces exactly the
lines ["R", " |->a", " |->b"]: the root's own name appears as the first
line with its connector stripped, and each leaf line keeps one leading
space because stripping len(end)=3 characters removes only part of its
4-character indent. -/
theorem C2_actual_lines : (printTree exTree true).1 = .ok ["R", " |->a", " |->b"] := rfl

/- ----------------------------------------------------------------- -/
/- Claim C3                                                          -/
/- ----------------------------------------------------------------- -/

/-- C3: for dict-shaped children the source compares the loop KEY with the
int len(nodes)-1, so a string-keyed dict never satisfies the last-entry
test: the single (hence final) element of {"a": "x"} is rendered with the
`branch` connector instead of the `end` connector (fancy palette, where
the two glyphs differ). -/
theorem C3_dict_final_entry_gets_branch :
    (printTree c3Tree true).1 = .ok [namelessG true, branchG true ++ "x"]
      ∧ (branchG true == endG true) = false
      ∧ keyEqInt (.str "a") ((1 : Int) - 1) = false := ⟨rfl, rfl, rfl⟩

/- ----------------------------------------------------------------- -/
/- Claim C4                                                          -/
/- ----------------------------------------------------------------- -/

/-- C4, counterexample: when a child's str() raises during layout, print
propagates the exception before restoring the root's name/nodes: the
post-call object still has the synthetic None name instead of "R". -/
theorem C4_counterexample :
    (printTree c4bad true).1 = .error .strFailure
      ∧ (printTree c4bad true).2.name = Option.none
      ∧ c4bad.name = some (pyStr "R") := ⟨rfl, rfl, rfl⟩

/-- C4 (amended): print restores the root's original name/nodes fields on
every SUCCESSFUL return (the save/restore is not exception-scoped: if
layout raises, the mutation persists). -/
theorem C4_restored_on_success (t : PTree) (remove : Bool) (lines : List String)
    (h : (printTree t remove).1 = .ok lines) : (printTree t remove).2 = t := by
  cases t with
  | mk n c f lw w =>
    unfold printTree at h ⊢
    cases hrec : recGen (PTree.mk Option.none
        (.list (.cons (.tree (treeInit n (childArg c) f (some lw) (some w))) .nil)) f lw w)
        true 0 true <;>
      simp [hrec] at h ⊢

/-- C4 witness: the tiny tree "T" renders successfully and its fields are
restored. -/
theorem C4_witness : (printTree c4Tree true).2 = c4Tree :=
  C4_restored_on_success c4Tree true ["T"] rfl

/- ----------------------------------------------------------------- -/
/- Claim C5                                                          -/
/- ----------------------------------------------------------------- -/

/-- C5: search on dict-shaped children with an absent key does return None
without raising, but on list-shaped children holding a plain value the
name comparison reads `.name` on that value and raises AttributeError
(the source itself remarks "List search does not work for some
reason"). -/
theorem C5_list_search_raises :
    search c5list (.str "b") = .error .attributeError
      ∧ search c5dict (.str "zz") = .ok Option.none := ⟨rfl, rfl⟩

/- ----------------------------------------------------------------- -/
/- Claim C6                                                          -/
/- ----------------------------------------------------------------- -/

/-- C6: update with cascade=True on a tree whose children are dict-shaped
leaves every descendant untouched: `Tree.__cascade` iterates only
`isinstance(items, list)` collections, and `dict.values()` is not a list.
The root's fancy flag becomes True while the Tree stored under key "k" is
returned literally unchanged, its fancy flag still False. -/
theorem C6_dict_children_not_cascaded :
    update (some true) Option.none Option.none true c6dict
        = .ok (.mk (some (pyStr "R")) (.dict (.cons (.str "k") (.tree c6child) .nil))
            true (-1) (-1))
      ∧ c6child.fancy = false := ⟨rfl, rfl⟩

/- ----------------------------------------------------------------- -/
/- Claim C8                                                          -/
/- ----------------------------------------------------------------- -/

/-- C8, counterexample: called with one function name and an empty
argument list (mismatched lengths), __cascade returns successfully with
the tree unchanged: no exception, no signal, nothing applied. -/
theorem C8_counterexample :
    cascade [FunName.setFancy] [] c6dict = .ok c6dict
      ∧ (([FunName.setFancy].length : Nat) == ([] : List CArg).length) = false := ⟨rfl, rfl⟩

/-- C8 (amended): whenever __cascade is invoked with mismatched
setting/argument counts it silently applies nothing and signals nothing:
the tree is returned unchanged inside a successful result. -/
theorem C8_mismatch_applies_nothing (funs : List FunName) (args : List CArg)
    (t : PTree) (h : funs.length ≠ args.length) : cascade funs args t = .ok t := by
  cases t with
  | mk n c f lw w =>
    unfold cascade
    simp [bne_iff_ne, h]

/-- C8 witness: a concrete mismatched call is a silent no-op. -/
theorem C8_witness : cascade [FunName.setFancy] [] c4Tree = .ok c4Tree :=
  C8_mismatch_applies_nothing [FunName.setFancy] [] c4Tree (by decide)

/- ----------------------------------------------------------------- -/
/- Claim C9                                                          -/
/- ----------------------------------------------------------------- -/

/-- A custom render function distinguishing whether it received the stored
argument. -/
def c9fun : Option PyVal → String
  | some _ => "with-args"
  | Option.none => "no-args"

/-- A Node with a render function attached and a stored but FALSY
print_args (the Python int 0: str form "0", truthiness False). -/
def c9Node : NodeData :=
  ⟨Option.none, Option.none, some c9fun, some ⟨"0", false⟩⟩

/-- C9, counterexample: `if self.print_args:` is a truthiness test, so a
stored falsy argument is not passed: the render function is invoked with
no argument even though arguments are stored. -/
theorem C9_counterexample :
    node_str c9Node = c9fun Option.none
      ∧ node_str c9Node ≠ c9fun (some ⟨"0", false⟩) :=
  ⟨rfl, by intro h; exact absurd h (by decide)⟩

/-- C9 (amended): the resolved display string follows the priority order
custom render function (called with the stored arguments if they are
present AND truthy, else with none), then the data value's str form, then
the name's str form, then the empty string. -/
theorem C9_resolution (nd : NodeData) :
    (∀ pf, nd.print_function = some pf →
        node_str nd = pf (match nd.print_args with
                          | some a => if a.truthy then some a else Option.none
                          | Option.none => Option.none))
      ∧ (nd.print_function = Option.none → ∀ d, nd.data = some d → node_str nd = d.str)
      ∧ (nd.print_function = Option.none → nd.data = Option.none →
          ∀ nm, nd.name = some nm → node_str nd = nm.str)
      ∧ (nd.print_function = Option.none → nd.data = Option.none →
          nd.name = Option.none → node_str nd = "") := by
  obtain ⟨d, nm, pf, pa⟩ := nd
  refine ⟨?_, ?_, ?_, ?_⟩
  · intro f hf
    cases hf
    cases pa with
    | none => rfl
    | some a => cases htr : a.truthy <;> simp [node_str, htr]
  · intro hpf d0 hd; cases hpf; cases hd; rfl
  · intro hpf hd nm0 hnm; cases hpf; cases hd; cases hnm; rfl
  · intro hpf hd hnm; cases hpf; cases hd; cases hnm; rfl

/- ----------------------------------------------------------------- -/
/- Claim C10                                                         -/
/- ----------------------------------------------------------------- -/

/-- The nodes field is a list or a dict (not Python None). -/
def isListOrDict : Children → Bool
  | .none => false
  | .list _ => true
  | .dict _ => true

/-- C10: (1) set_nodes always produces a list or a dict; (2) a tree built
with no children holds the list [None]; (3) a None entry in a child list
is silently skipped during rendering (it contributes no lines, the loop
moving on to the next index); (4) add_node on such a tree appends to the
existing list even when a key is supplied. -/
theorem C10_children_invariants :
    (∀ a : SetNodesArg, isListOrDict (set_nodes a) = true)
      ∧ set_nodes (.bare .pynone) = Children.list (.cons .pynone .nil)
      ∧ (∀ (fancy : Bool) (lw w : Int) (last : Bool) (prior total i : Nat)
          (rest : ItemList),
          genItems fancy lw w last prior total i (.cons .pynone rest)
            = genItems fancy lw w last prior total (i + 1) rest)
      ∧ (∀ (nm : Option PyVal) (f : Bool) (lw w : Option Int) (x : Item) (k : Key),
          (add_node (treeInit nm (.bare .pynone) f lw w) x (some k)).1.nodes
            = Children.list (.cons .pynone (.cons x .nil))) := by
  refine ⟨?_, rfl, ?_, ?_⟩
  · intro a; cases a <;> rfl
  · intro fancy lw w last prior total i rest
    cases h : genItems fancy lw w last prior total (i + 1) rest <;>
      simp [genItems, genItem, h]
  · intro nm f lw w x k; rfl

/- ----------------------------------------------------------------- -/
/- Claim C7: palette comparison machinery                            -/
/- ----------------------------------------------------------------- -/

/-- A palette-abstracted piece of an output line: one of the five
palette-dependent glyphs, or literal text (a name/value; the split_line
marker never occurs when no wrapping is in effect). -/
inductive GTok where
  | gPipe
  | gBranch
  | gEnd
  | gSpace
  | gNameless
  | text (s : String)
deriving DecidableEq, Repr

/-- The concrete string a token renders to in palette b. -/
def renderTok (b : Bool) : GTok → String
  | .gPipe => pipeG b
  | .gBranch => branchG b
  | .gEnd => endG b
  | .gSpace => spaceG b
  | .gNameless => namelessG b
  | .text s => s

/-- Render a token line to its concrete string in palette b. -/
def lineR (b : Bool) : List GTok → String
  | [] => ""
  | g :: rest => renderTok b g ++ lineR b rest

mutual
/-- Modelled from the claim's setup ("the flag cascaded to all nodes, all
other settings equal"): the fancy flag set to b on every node of the tree,
everything else unchanged. -/
def withFancyAll (b : Bool) : PTree → PTree
  | .mk n nodes _ lw w => .mk n (withFancyChildren b nodes) b lw w

/-- withFancyAll over a child collection. -/
def withFancyChildren (b : Bool) : Children → Children
  | .none => .none
  | .list l => .list (withFancyItems b l)
  | .dict d => .dict (withFancyEntries b d)

/-- withFancyAll over the items of a list. -/
def withFancyItems (b : Bool) : ItemList → ItemList
  | .nil => .nil
  | .cons i rest => .cons (withFancyItem b i) (withFancyItems b rest)

/-- withFancyAll over one child entry. -/
def withFancyItem (b : Bool) : Item → Item
  | .tree t => .tree (withFancyAll b t)
  | .val v => .val v
  | .raising => .raising
  | .pynone => .pynone

/-- withFancyAll over the entries of a dict. -/
def withFancyEntries (b : Bool) : EntryList → EntryList
  | .nil => .nil
  | .cons k i rest => .cons k (withFancyItem b i) (withFancyEntries b rest)
end

mutual
/-- No wrapping is in effect anywhere in the tree: every node's line_wrap
and width are ≤ 0. -/
def noWrap : PTree → Bool
  | .mk _ nodes _ lw w => decide (lw ≤ 0) && decide (w ≤ 0) && noWrapChildren nodes

/-- noWrap over a child collection. -/
def noWrapChildren : Children → Bool
  | .none => true
  | .list l => noWrapItems l
  | .dict d => noWrapEntries d

/-- noWrap over the items of a list. -/
def noWrapItems : ItemList → Bool
  | .nil => true
  | .cons i rest => noWrapItem i && noWrapItems rest

/-- noWrap over one child entry. -/
def noWrapItem : Item → Bool
  | .tree t => noWrap t
  | _ => true

/-- noWrap over the entries of a dict. -/
def noWrapEntries : EntryList → Bool
  | .nil => true
  | .cons _ i rest => noWrapItem i && noWrapEntries rest
end

mutual
/-- No child entry anywhere in the tree has a raising str(). -/
def noRaise : PTree → Bool
  | .mk _ nodes _ _ _ => noRaiseChildren nodes

/-- noRaise over a child collection. -/
def noRaiseChildren : Children → Bool
  | .none => true
  | .list l => noRaiseItems l
  | .dict d => noRaiseEntries d

/-- noRaise over the items of a list. -/
def noRaiseItems : ItemList → Bool
  | .nil => true
  | .cons i rest => noRaiseItem i && noRaiseItems rest

/-- noRaise over one child entry. -/
def noRaiseItem : Item → Bool
  | .tree t => noRaise t
  | .raising => false
  | _ => true

/-- noRaise over the entries of a dict. -/
def noRaiseEntries : EntryList → Bool
  | .nil => true
  | .cons _ i rest => noRaiseItem i && noRaiseEntries rest
end

mutual
/-- The palette-abstracted lines `__recursive_generation` produces when no
wrapping is in effect: the same recursion as recGen with every glyph left
as a token. -/
def genTok (last root : Bool) : PTree → List (List GTok)
  | .mk name _nodes _ _ _ =>
    (if treeStr name != "" || !root then
      [[if last then GTok.gEnd else GTok.gBranch,
        if treeStr name == "" then GTok.gNameless else GTok.text (treeStr name)]]
     else [])
    ++ genTokChildren last _nodes

/-- genTok over a child collection. -/
def genTokChildren (last : Bool) : Children → List (List GTok)
  | .none => []
  | .list l => genTokItems last l.length 0 l
  | .dict d => genTokEntries last d.length d

/-- genTok over the items of a list. -/
def genTokItems (last : Bool) (total i : Nat) : ItemList → List (List GTok)
  | .nil => []
  | .cons item rest =>
    genTokItem last (i == total - 1) item ++ genTokItems last total (i + 1) rest

/-- genTok over the entries of a dict. -/
def genTokEntries (last : Bool) (total : Nat) : EntryList → List (List GTok)
  | .nil => []
  | .cons k item rest =>
    genTokItem last (keyEqInt k ((total : Int) - 1)) item
      ++ genTokEntries last total rest

/-- genTok over one child entry. -/
def genTokItem (_last isLast : Bool) : Item → List (List GTok)
  | .tree t =>
    (match genTok isLast false t with
     | [] => []
     | c0 :: rest =>
       c0 :: rest.map (fun l =>
         (if isLast then GTok.gSpace else GTok.gPipe) :: GTok.gSpace :: l))
  | .val v => [[if isLast then GTok.gEnd else GTok.gBranch, GTok.text v.str]]
  | .raising => []
  | .pynone => []
end

/-- A token line starting with a connector/continuation glyph (every line
generated under no-wrap settings does). -/
def lineHead : List GTok → Bool
  | .gPipe :: _ => true
  | .gBranch :: _ => true
  | .gEnd :: _ => true
  | .gSpace :: _ => true
  | _ => false

/-- The characters of an appended string. -/
theorem strData_append (a b : String) : (a ++ b).data = a.data ++ b.data := by
  cases a; cases b; rfl

/-- Strings with the same characters are equal. -/
theorem strExt {a b : String} (h : a.data = b.data) : a = b :=
  congrArg String.mk h

/-- Appending the empty string on the right. -/
theorem sappend_empty (s : String) : s ++ "" = s :=
  strExt (by rw [strData_append]; exact List.append_nil _)

/-- String append is associative. -/
theorem sappend_assoc (a b c : String) : a ++ b ++ c = a ++ (b ++ c)  :=
  strExt (by simp [strData_append])

/-- The first-character test succeeds when the string starts with a
character other than c. -/
theorem firstCharNe_cons (c d : Char) (s : String) (l : List Char)
    (h : s.data = d :: l) (hne : (d != c) = true) : firstCharNe c s = true := by
  unfold firstCharNe
  rw [h]
  exact hne

/-- A rendered token line that starts with a connector/continuation glyph
never starts with the split_line character, in either palette. -/
theorem renderLineHead (b : Bool) (l : List GTok) (h : lineHead l = true) :
    firstCharNe '~' (lineR b l) = true := by
  cases l with
  | nil => simp [lineHead] at h
  | cons g rest =>
    cases g with
    | text s => simp [lineHead] at h
    | gNameless => simp [lineHead] at h
    | gPipe =>
      cases b
      · exact firstCharNe_cons _ '|' _ _ (by rw [lineR, strData_append]; rfl) (by decide)
      · exact firstCharNe_cons _ '│' _ _ (by rw [lineR, strData_append]; rfl) (by decide)
    | gBranch =>
      cases b
      · exact firstCharNe_cons _ '|' _ _ (by rw [lineR, strData_append]; rfl) (by decide)
      · exact firstCharNe_cons _ '├' _ _ (by rw [lineR, strData_append]; rfl) (by decide)
    | gEnd =>
      cases b
      · exact firstCharNe_cons _ '|' _ _ (by rw [lineR, strData_append]; rfl) (by decide)
      · exact firstCharNe_cons _ '└' _ _ (by rw [lineR, strData_append]; rfl) (by decide)
    | gSpace =>
      cases b
      · exact firstCharNe_cons _ ' ' _ _ (by rw [lineR, strData_append]; rfl) (by decide)
      · exact firstCharNe_cons _ ' ' _ _ (by rw [lineR, strData_append]; rfl) (by decide)

mutual
/-- Every token line a tree generates starts with a glyph token. -/
theorem headsTree (last root : Bool) (t : PTree) :
    ∀ l ∈ genTok last root t, lineHead l = true := by
  cases t with
  | mk n c f lw w =>
    intro l hl
    unfold genTok at hl
    rw [List.mem_append] at hl
    rcases hl with h | h
    · split at h
      · simp at h
        subst h
        cases last <;> rfl
      · simp at h
    · exact headsChildren last c l h

/-- Every token line a child collection generates starts with a glyph
token. -/
theorem headsChildren (last : Bool) (c : Children) :
    ∀ l ∈ genTokChildren last c, lineHead l = true := by
  cases c with
  | none => intro l hl; simp [genTokChildren] at hl
  | list il => exact headsItems last il.length 0 il
  | dict el => exact headsEntries last el.length el

/-- Every token line a list of children generates starts with a glyph
token. -/
theorem headsItems (last : Bool) (total i : Nat) (il : ItemList) :
    ∀ l ∈ genTokItems last total i il, lineHead l = true := by
  cases il with
  | nil => intro l hl; simp [genTokItems] at hl
  | cons item rest =>
    intro l hl
    unfold genTokItems at hl
    rw [List.mem_append] at hl
    rcases hl with h | h
    · exact headsItem last (i == total - 1) item l h
    · exact headsItems last total (i + 1) rest l h

/-- Every token line a dict of children generates starts with a glyph
token. -/
theorem headsEntries (last : Bool) (total : Nat) (el : EntryList) :
    ∀ l ∈ genTokEntries last total el, lineHead l = true := by
  cases el with
  | nil => intro l hl; simp [genTokEntries] at hl
  | cons k item rest =>
    intro l hl
    unfold genTokEntries at hl
    rw [List.mem_append] at hl
    rcases hl with h | h
    · exact headsItem last (keyEqInt k ((total : Int) - 1)) item l h
    · exact headsEntries last total rest l h

/-- Every token line one child entry generates starts with a glyph
token. -/
theorem headsItem (last isLast : Bool) (item : Item) :
    ∀ l ∈ genTokItem last isLast item, lineHead l = true := by
  cases item with
  | val v =>
    intro l hl
    simp [genTokItem] at hl
    subst hl
    cases isLast <;> rfl
  | raising => intro l hl; simp [genTokItem] at hl
  | pynone => intro l hl; simp [genTokItem] at hl
  | tree t =>
    intro l hl
    unfold genTokItem at hl
    cases hg : genTok isLast false t with
    | nil => rw [hg] at hl; simp at hl
    | cons c0 rest =>
      rw [hg] at hl
      simp only [List.mem_cons] at hl
      rcases hl with h | h
      · rw [h]
        exact headsTree isLast false t c0 (by rw [hg]; exact List.mem_cons_self _ _)
      · rw [List.mem_map] at h
        obtain ⟨l0, _, rfl⟩ := h
        cases isLast <;> rfl
end

/-- withFancyAll does not change the number of items of a list. -/
theorem withFancyItems_length (b : Bool) (il : ItemList) :
    (withFancyItems b il).length = il.length := by
  cases il with
  | nil => rfl
  | cons i rest =>
    simp [withFancyItems, ItemList.length, withFancyItems_length b rest]

/-- withFancyAll does not change the number of entries of a dict. -/
theorem withFancyEntries_length (b : Bool) (el : EntryList) :
    (withFancyEntries b el).length = el.length := by
  cases el with
  | nil => rfl
  | cons k i rest =>
    simp [withFancyEntries, EntryList.length, withFancyEntries_length b rest]

mutual
/-- Correspondence: under no-wrap settings and without raising children,
generation in palette b is the rendering of the palette-free token
lines. -/
theorem corrTree (b last : Bool) (prior : Nat) (root : Bool) (t : PTree)
    (hw : noWrap t = true) (hr : noRaise t = true) :
    recGen (withFancyAll b t) last prior root
      = .ok ((genTok last root t).map (lineR b)) := by
  cases t with
  | mk n c f lw w =>
    rw [noWrap] at hw
    simp only [Bool.and_eq_true, decide_eq_true_eq] at hw
    rw [noRaise] at hr
    have hch := corrChildren b last prior lw w c hw.2 hr hw.1.1 hw.1.2
    have hlwn : ¬(lw > 0) := Int.not_lt.mpr hw.1.1
    simp only [withFancyAll, recGen, genTok]
    rw [hch]
    rw [List.map_append]
    cases hcond : (treeStr n != "" || !root) with
    | false => simp [hcond]
    | true =>
      by_cases hnm : treeStr n = "" <;>
        cases last <;>
          simp [hcond, hlwn, hnm, lineR, renderTok, sappend_empty]

/-- Correspondence over a child collection. -/
theorem corrChildren (b last : Bool) (prior : Nat) (lw w : Int) (c : Children)
    (hw : noWrapChildren c = true) (hr : noRaiseChildren c = true)
    (hlw : lw ≤ 0) (hww : w ≤ 0) :
    genChildren b lw w last prior (withFancyChildren b c)
      = .ok ((genTokChildren last c).map (lineR b)) := by
  cases c with
  | none => rfl
  | list il =>
    show genItems b lw w last prior (withFancyItems b il).length 0
        (withFancyItems b il) = _
    rw [withFancyItems_length]
    exact corrItems b last prior lw w il.length 0 il hw hr hlw hww
  | dict el =>
    show genEntries b lw w last prior (withFancyEntries b el).length
        (withFancyEntries b el) = _
    rw [withFancyEntries_length]
    exact corrEntries b last prior lw w el.length el hw hr hlw hww

/-- Correspondence over the items of a list. -/
theorem corrItems (b last : Bool) (prior : Nat) (lw w : Int) (total i : Nat)
    (il : ItemList) (hw : noWrapItems il = true) (hr : noRaiseItems il = true)
    (hlw : lw ≤ 0) (hww : w ≤ 0) :
    genItems b lw w last prior total i (withFancyItems b il)
      = .ok ((genTokItems last total i il).map (lineR b)) := by
  cases il with
  | nil => rfl
  | cons item rest =>
    rw [noWrapItems] at hw
    rw [noRaiseItems] at hr
    simp only [Bool.and_eq_true] at hw hr
    have h1 := corrItem b last prior lw w (i == total - 1) item hw.1 hr.1 hlw hww
    have h2 := corrItems b last prior lw w total (i + 1) rest hw.2 hr.2 hlw hww
    simp only [withFancyItems, genItems, genTokItems]
    rw [h1, h2]
    simp [List.map_append]

/-- Correspondence over the entries of a dict. -/
theorem corrEntries (b last : Bool) (prior : Nat) (lw w : Int) (total : Nat)
    (el : EntryList) (hw : noWrapEntries el = true) (hr : noRaiseEntries el = true)
    (hlw : lw ≤ 0) (hww : w ≤ 0) :
    genEntries b lw w last prior total (withFancyEntries b el)
      = .ok ((genTokEntries last total el).map (lineR b)) := by
  cases el with
  | nil => rfl
  | cons k item rest =>
    rw [noWrapEntries] at hw
    rw [noRaiseEntries] at hr
    simp only [Bool.and_eq_true] at hw hr
    have h1 := corrItem b last prior lw w (keyEqInt k ((total : Int) - 1)) item
      hw.1 hr.1 hlw hww
    have h2 := corrEntries b last prior lw w total rest hw.2 hr.2 hlw hww
    simp only [withFancyEntries, genEntries, genTokEntries]
    rw [h1, h2]
    simp [List.map_append]

/-- Correspondence over one child entry. -/
theorem corrItem (b last : Bool) (prior : Nat) (lw w : Int) (isLast : Bool)
    (item : Item) (hw : noWrapItem item = true) (hr : noRaiseItem item = true)
    (hlw : lw ≤ 0) (hww : w ≤ 0) :
    genItem b lw w last prior isLast (withFancyItem b item)
      = .ok ((genTokItem last isLast item).map (lineR b)) := by
  cases item with
  | pynone => rfl
  | raising => simp [noRaiseItem] at hr
  | val v =>
    have h1 : ¬(w > 0) := Int.not_lt.mpr hww
    have h2 : ¬(lw > 0) := Int.not_lt.mpr hlw
    simp only [withFancyItem, genItem, genTokItem]
    cases isLast <;> simp [h1, h2, lineR, renderTok, sappend_empty]
  | tree t =>
    have hc := corrTree b isLast
      ((if last then endG b else branchG b).length + prior) false t hw hr
    simp only [withFancyItem, genItem]
    rw [hc]
    cases hg : genTok isLast false t with
    | nil => simp [reindent, genTokItem, hg]
    | cons c0 rest =>
      simp only [genTokItem, hg, List.map_cons, reindent, List.map_map]
      congr 2
      apply List.map_congr_left
      intro l hlmem
      have hh : lineHead l = true :=
        headsTree isLast false t l (by rw [hg]; exact List.mem_cons_of_mem _ hlmem)
      have hfc := renderLineHead b l hh
      simp only [Function.comp, hfc, if_true, lineR]
      cases isLast <;> simp [renderTok, sappend_assoc]
end

/-- Normalizing the nodes field through the constructor commutes with
setting the fancy flag everywhere. -/
theorem setnodes_withFancy (b : Bool) (c : Children) :
    set_nodes (childArg (withFancyChildren b c))
      = withFancyChildren b (set_nodes (childArg c)) := by
  cases c <;> rfl

/-- Normalizing the nodes field preserves the no-wrap property. -/
theorem noWrapChildren_setnodes (c : Children) :
    noWrapChildren (set_nodes (childArg c)) = noWrapChildren c := by
  cases c <;> rfl

/-- Normalizing the nodes field preserves the no-raise property. -/
theorem noRaiseChildren_setnodes (c : Children) :
    noRaiseChildren (set_nodes (childArg c)) = noRaiseChildren c := by
  cases c <;> rfl

/-- C7 (amended): when no wrapping is in effect anywhere (every node's
per-node wrap and width budget are ≤ 0) and no child's str() raises,
rendering with the fancy palette versus the ASCII palette (the flag set on
all nodes, all other settings equal) yields line lists that are the two
palette renderings of one common list of token lines — so the same number
of lines and the same textual content, only the glyph characters differ —
and after root-connector stripping the line counts still agree. -/
theorem C7_palette_no_wrap (t : PTree) (hw : noWrap t = true) (hr : noRaise t = true) :
    ∃ L : List (List GTok),
      (printTree (withFancyAll true t) false).1 = .ok (L.map (lineR true))
        ∧ (printTree (withFancyAll false t) false).1 = .ok (L.map (lineR false))
        ∧ Except.map List.length (printTree (withFancyAll true t) true).1
            = Except.map List.length (printTree (withFancyAll false t) true).1 := by
  cases t with
  | mk n c f lw w =>
    rw [noWrap] at hw
    simp only [Bool.and_eq_true, decide_eq_true_eq] at hw
    rw [noRaise] at hr
    have hwork_w : noWrap (PTree.mk Option.none
        (.list (.cons (.tree (PTree.mk n (set_nodes (childArg c)) f lw w)) .nil))
        f lw w) = true := by
      simp only [noWrap, noWrapChildren, noWrapItems, noWrapItem,
        noWrapChildren_setnodes, Bool.and_eq_true, decide_eq_true_eq]
      exact ⟨⟨hw.1.1, hw.1.2⟩, ⟨⟨hw.1.1, hw.1.2⟩, hw.2⟩, trivial⟩
    have hwork_r : noRaise (PTree.mk Option.none
        (.list (.cons (.tree (PTree.mk n (set_nodes (childArg c)) f lw w)) .nil))
        f lw w) = true := by
      simp only [noRaise, noRaiseChildren, noRaiseItems, noRaiseItem,
        noRaiseChildren_setnodes, Bool.and_eq_true]
      exact ⟨hr, trivial⟩
    have key : ∀ b : Bool,
        recGen (withFancyAll b (PTree.mk Option.none
          (.list (.cons (.tree (PTree.mk n (set_nodes (childArg c)) f lw w)) .nil))
          f lw w)) true 0 true
          = .ok ((genTok true true (PTree.mk Option.none
              (.list (.cons (.tree (PTree.mk n (set_nodes (childArg c)) f lw w)) .nil))
              f lw w)).map (lineR b)) :=
      fun b => corrTree b true 0 true _ hwork_w hwork_r
    have hident : ∀ b : Bool,
        (PTree.mk Option.none
          (.list (.cons (.tree (treeInit n (childArg (withFancyChildren b c)) b
            (some lw) (some w))) .nil)) b lw w)
          = withFancyAll b (PTree.mk Option.none
              (.list (.cons (.tree (PTree.mk n (set_nodes (childArg c)) f lw w)) .nil))
              f lw w) := by
      intro b
      cases c <;> rfl
    refine ⟨genTok true true (PTree.mk Option.none
      (.list (.cons (.tree (PTree.mk n (set_nodes (childArg c)) f lw w)) .nil))
      f lw w), ?_, ?_, ?_⟩
    · simp only [withFancyAll, printTree, treeInit, Option.getD]
      rw [show (PTree.mk n (set_nodes (childArg (withFancyChildren true c))) true lw w)
            = treeInit n (childArg (withFancyChildren true c)) true (some lw) (some w) from rfl]
      rw [hident true, key true]
      simp
    · simp only [withFancyAll, printTree, treeInit, Option.getD]
      rw [show (PTree.mk n (set_nodes (childArg (withFancyChildren false c))) false lw w)
            = treeInit n (childArg (withFancyChildren false c)) false (some lw) (some w) from rfl]
      rw [hident false, key false]
      simp
    · simp only [withFancyAll, printTree, treeInit, Option.getD]
      rw [show (PTree.mk n (set_nodes (childArg (withFancyChildren true c))) true lw w)
            = treeInit n (childArg (withFancyChildren true c)) true (some lw) (some w) from rfl]
      rw [show (PTree.mk n (set_nodes (childArg (withFancyChildren false c))) false lw w)
            = treeInit n (childArg (withFancyChildren false c)) false (some lw) (some w) from rfl]
      rw [hident true, hident false, key true, key false]
      simp [Except.map]

/-- C7 witness: the no-wrap scenario tree satisfies the hypotheses and the
two palette renderings share one token-line list. -/
theorem C7_witness :
    ∃ L : List (List GTok),
      (printTree (withFancyAll true exTree) false).1 = .ok (L.map (lineR true))
        ∧ (printTree (withFancyAll false exTree) false).1 = .ok (L.map (lineR false))
        ∧ Except.map List.length (printTree (withFancyAll true exTree) true).1
            = Except.map List.length (printTree (withFancyAll false exTree) true).1 :=
  C7_palette_no_wrap exTree (by decide) (by decide)

/-- A tree with a 6-character leaf and a width budget of 10 (ASCII palette
fields; the palette flag is set by withFancyAll in the counterexample). -/
def c7a : PTree :=
  treeInit (some (pyStr "R")) (.list (.cons (.val (pyStr "aaaaaa")) .nil))
    false Option.none (some 10)

/-- C7, counterexample: with a width budget in effect the two palettes
produce different LINE COUNTS, because the remaining width
`width - len(connector) - prior_prefix` depends on the palette's glyph
lengths (10-3-3=4 cuts "aaaaaa" into two lines in ASCII; 10-2-2=6 keeps it
whole in fancy). -/
theorem C7_counterexample :
    Except.map List.length (printTree (withFancyAll true c7a) true).1
      ≠ Except.map List.length (printTree (withFancyAll false c7a) true).1 := by
  intro h
  have h1 : Except.map List.length (printTree (withFancyAll true c7a) true).1
      = .ok 2 := rfl
  have h2 : Except.map List.length (printTree (withFancyAll false c7a) true).1
      = .ok 3 := rfl
  rw [h1, h2] at h
  exact absurd h (by decide)
